import Mathlib

/-!
Verification of the PCAN CAN diagnostic tool (frame matching, payload field
decoding, and the scripted send-then-verify test runner) against its
natural-language specification.

The definitions below are a shallow embedding of the Python sources:
  - pcan_transceiver.py   (class CANTransceiver)
  - pcan_receiver.py      (class CANReceiver)
  - pcan_sender_with_verification.py (CANListener, CANSender, run_test_case)
  - can_messages_config.py (PREDEFINED_MESSAGES)

CAN payload bytes are modelled as Nat (python-can guarantees 0..255, the
matching and decoding code never relies on that bound except where noted),
byte patterns as lists of Option Nat where none is the wildcard, and CAN
frames as a structure carrying the arbitration id, the extended-id flag and
the data bytes.
-/

/-- A received or sent CAN frame as the scripts see it (python-can Message:
fields arbitration_id, is_extended_id, data). -/
structure CANMessage where
  arbitration_id : Nat
  is_extended_id : Bool
  data : List Nat
deriving Repr, DecidableEq

/-- A payload match pattern: one entry per byte position, none = wildcard. -/
abbrev DataPattern := List (Option Nat)

/-- The byte loop of CANTransceiver._check_match (pcan_transceiver.py lines
787-791): for i, expected in enumerate(target_data): skip wildcards, compare
msg.data[i] to expected.  The caller guarantees i is in range, so the Python
indexing msg.data[i] is modelled with getD. -/
def transceiver_bytes_ok (data : List Nat) : Nat → DataPattern → Bool
  | _, [] => true
  | i, none :: rest => transceiver_bytes_ok data (i + 1) rest
  | i, some b :: rest => data.getD i 0 == b && transceiver_bytes_ok data (i + 1) rest

/-- The byte loop shared by CANReceiver._check_match (pcan_receiver.py lines
422-424) and CANListener.check_message_received (pcan_sender_with_verification.py
lines 236-240): a non-wildcard position fails when the index is out of range
(i >= len(msg.data)) or the byte differs. -/
def bounded_bytes_ok (data : List Nat) : Nat → DataPattern → Bool
  | _, [] => true
  | i, none :: rest => bounded_bytes_ok data (i + 1) rest
  | i, some b :: rest =>
    match data[i]? with
    | some d => d == b && bounded_bytes_ok data (i + 1) rest
    | none => false

/-- CANTransceiver._check_match (pcan_transceiver.py lines 776-793): exact id
equality; pattern absent matches anything; otherwise the payload must be at
least as long as the pattern (prefix semantics) and agree on every
non-wildcard position. -/
def transceiver_check_match (msg : CANMessage) (target_id : Nat)
    (target_data : Option DataPattern) : Bool :=
  if msg.arbitration_id != target_id then false
  else
    match target_data with
    | none => true
    | some pat =>
      if msg.data.length < pat.length then false
      else transceiver_bytes_ok msg.data 0 pat

/-- CANReceiver._check_match (pcan_receiver.py lines 414-425): exact id
equality; pattern absent matches anything; otherwise the payload length must
EQUAL the pattern length, then every non-wildcard position must agree. -/
def receiver_check_match (msg : CANMessage) (target_id : Nat)
    (target_data : Option DataPattern) : Bool :=
  if msg.arbitration_id != target_id then false
  else
    match target_data with
    | none => true
    | some pat =>
      if msg.data.length != pat.length then false
      else bounded_bytes_ok msg.data 0 pat

/-- The per-frame test of CANListener.check_message_received
(pcan_sender_with_verification.py lines 232-243): id equality and the
bounded wildcard byte loop (no length requirement at all). -/
def listener_frame_match (msg : CANMessage) (expected_id : Nat)
    (expected_data : DataPattern) : Bool :=
  msg.arbitration_id == expected_id && bounded_bytes_ok msg.data 0 expected_data

/-- The buffer scan of CANListener.check_message_received: the first frame of
the capture buffer (self.received_messages, in arrival order) satisfying the
per-frame test.  Time is abstracted away: the buffer argument holds the
frames captured within the verification timeout. -/
def check_message_received (buffer : List CANMessage) (expected_id : Nat)
    (expected_data : DataPattern) : Option CANMessage :=
  buffer.find? (fun msg => listener_frame_match msg expected_id expected_data)

/-- CANSender.verify_message (pcan_sender_with_verification.py lines 285-307):
true iff the buffer scan found a frame. -/
def verify_message (buffer : List CANMessage) (expected_id : Nat)
    (expected_data : DataPattern) : Bool :=
  (check_message_received buffer expected_id expected_data).isSome

/-- Endianness selector of a multi-byte field (field_info.get('endian', 'little')). -/
inductive Endianness
  | little
  | big
deriving Repr, DecidableEq

/-- The field type tags dispatched on by _decode_special_fields
(pcan_transceiver.py lines 597-713). -/
inductive FieldKind
  | t16bit
  | t32bit
  | t16bit_signed
  | nibble_lower
  | nibble_upper
  | byte_enum
  | bit_field
deriving Repr, DecidableEq

/-- One entry of a special_decode table (can_messages_config.py): the decode
kind, the participating byte offsets (multi-byte kinds use bytes, single-byte
kinds use byte), endianness, bit index, optional enum label table, optional
epoch base and optional status function. -/
structure FieldInfo where
  type : FieldKind
  description : String := ""
  bytes : List Nat := []
  byte : Nat := 0
  endian : Endianness := Endianness.little
  bit : Nat := 0
  values : Option (List (Nat × String)) := none
  epoch_base : Option Int := none
  status_func : Option (Int → String) := none

/-- The per-field result dictionary built by _decode_special_fields; absent
dictionary keys are none. -/
structure DecodedField where
  value : Int
  hex : Option String := none
  description : String := ""
  datetime : Option String := none
  unix_timestamp : Option Int := none
  status : Option String := none
  text : Option String := none
  byte_value : Option Nat := none
  bit_position : Option Nat := none
deriving Repr, DecidableEq

/-- Uppercase zero-padded hex rendering, modelling the Python format strings
0x{value:04X} etc. (minimum width, no truncation). -/
def hex_upper (v : Nat) (width : Nat) : String :=
  let ds := (Nat.toDigits 16 v).map Char.toUpper
  "0x" ++ String.mk (List.replicate (width - ds.length) '0' ++ ds)

/-- field_info['values'].get(value, 'Unknown'). -/
def lookup_label (values : List (Nat × String)) (v : Nat) : String :=
  match values.lookup v with
  | some s => s
  | none => "Unknown"

/-- The transceiver range guard: all(idx < len(msg.data) for idx in byte_indices)
(pcan_transceiver.py lines 599, 612, 645). -/
def range_ok (data : List Nat) (idxs : List Nat) : Bool :=
  idxs.all (fun idx => idx < data.length)

/-- The receiver range guard: len(msg.data) > max(bytes_idx)
(pcan_receiver.py lines 284, 297, 312); an empty index list makes Python max
raise, the field is then skipped by the per-field try/except. -/
def receiver_range_ok (data : List Nat) (idxs : List Nat) : Bool :=
  match idxs.max? with
  | some m => m < data.length
  | none => false

/-- 16-bit combine of the transceiver decoder: little is
data[b0] | (data[b1] << 8), big is (data[b0] << 8) | data[b1]. -/
def combine16 (x0 x1 : Nat) (e : Endianness) : Nat :=
  match e with
  | Endianness.little => x0 ||| (x1 <<< 8)
  | Endianness.big => (x0 <<< 8) ||| x1

/-- 32-bit combine of the transceiver decoder (pcan_transceiver.py lines
613-622). -/
def combine32 (x0 x1 x2 x3 : Nat) (e : Endianness) : Nat :=
  match e with
  | Endianness.little => x0 ||| (x1 <<< 8) ||| (x2 <<< 16) ||| (x3 <<< 24)
  | Endianness.big => (x0 <<< 24) ||| (x1 <<< 16) ||| (x2 <<< 8) ||| x3

/-- Little-endian 16-bit combine as written in the receiver decoder
(pcan_receiver.py line 286): (data[b1] << 8) | data[b0]. -/
def receiver_combine16_le (x0 x1 : Nat) : Nat :=
  (x1 <<< 8) ||| x0

/-- Little-endian 32-bit combine as written in the receiver decoder
(pcan_receiver.py lines 299-300). -/
def receiver_combine32_le (x0 x1 x2 x3 : Nat) : Nat :=
  (x3 <<< 24) ||| (x2 <<< 16) ||| (x1 <<< 8) ||| x0

/-- Two's-complement reinterpretation of a 16-bit pattern: models the
transceiver struct.unpack of '<h' after struct.pack of '<H' (line 651) and the
receiver form raw if raw < 0x8000 else raw - 0x10000 (line 318). -/
def to_signed16 (raw : Nat) : Int :=
  if raw < 0x8000 then (raw : Int) else (raw : Int) - 0x10000

/-- Unix timestamp of 2016-01-01 00:00:00 UTC (pcan_transceiver.py line 69 and
the epoch_base entries of can_messages_config.py). -/
def EPOCH_BASE : Int := 1451606400

/-- Smallest Unix timestamp CPython datetime.fromtimestamp(ts, tz=utc)
accepts (0001-01-01 00:00:00 UTC). -/
def min_valid_ts : Int := -62135596800

/-- Largest Unix timestamp CPython datetime.fromtimestamp(ts, tz=utc)
accepts (9999-12-31 23:59:59 UTC). -/
def max_valid_ts : Int := 253402300799

/-- Zero-pad a number to two digits (Python strftime %m %d %H %M %S). -/
def pad2 (n : Nat) : String :=
  if n < 10 then "0" ++ toString n else toString n

/-- Proleptic-Gregorian rendering of an in-range Unix timestamp as
"%Y-%m-%d %H:%M:%S UTC", modelling datetime.fromtimestamp(ts, tz=utc)
followed by strftime as the scripts call it (year unpadded, as glibc renders
%Y).  Uses the standard civil-from-days computation on days since
0001-01-01. -/
def format_utc_timestamp (ts : Int) : String :=
  let z := (ts - min_valid_ts).toNat
  let days := z / 86400
  let secs := z % 86400
  let shifted := days + 306
  let era := shifted / 146097
  let doe := shifted % 146097
  let yoe := (doe - doe / 1460 + doe / 36524 - doe / 146096) / 365
  let y := yoe + era * 400
  let doy := doe - (365 * yoe + yoe / 4 - yoe / 100)
  let mp := (5 * doy + 2) / 153
  let d := doy - (153 * mp + 2) / 5 + 1
  let m := if mp < 10 then mp + 3 else mp - 9
  let yy := if m ≤ 2 then y + 1 else y
  toString yy ++ "-" ++ pad2 m ++ "-" ++ pad2 d ++ " " ++
    pad2 (secs / 3600) ++ ":" ++ pad2 (secs % 3600 / 60) ++ ":" ++
    pad2 (secs % 60) ++ " UTC"

/-- The try/except around datetime.fromtimestamp in the epoch branch
(pcan_transceiver.py lines 633-639): an in-range timestamp is rendered, an
out-of-range one yields the literal marker. -/
def datetime_from_timestamp_utc (ts : Int) : String :=
  if min_valid_ts ≤ ts ∧ ts ≤ max_valid_ts then format_utc_timestamp ts
  else "Invalid timestamp"

/-- One field of CANTransceiver._decode_special_fields (pcan_transceiver.py
lines 593-717): none means the field is skipped (out-of-range offsets, or an
offset list too short for the kind, which raises IndexError in Python and is
absorbed by the per-field try/except). -/
def decode_field (data : List Nat) (info : FieldInfo) : Option DecodedField :=
  match info.type with
  | FieldKind.t16bit =>
    if range_ok data info.bytes then
      match info.bytes[0]?, info.bytes[1]? with
      | some b0, some b1 =>
        let value := combine16 (data.getD b0 0) (data.getD b1 0) info.endian
        some { value := (value : Int), hex := some (hex_upper value 4),
               description := info.description }
      | _, _ => none
    else none
  | FieldKind.t32bit =>
    if range_ok data info.bytes then
      match info.bytes[0]?, info.bytes[1]?, info.bytes[2]?, info.bytes[3]? with
      | some b0, some b1, some b2, some b3 =>
        let value := combine32 (data.getD b0 0) (data.getD b1 0)
          (data.getD b2 0) (data.getD b3 0) info.endian
        match info.epoch_base with
        | some base =>
          let unix_ts : Int := (value : Int) + base
          some { value := (value : Int), hex := some (hex_upper value 8),
                 description := info.description,
                 datetime := some (datetime_from_timestamp_utc unix_ts),
                 unix_timestamp := some unix_ts }
        | none =>
          some { value := (value : Int), hex := some (hex_upper value 8),
                 description := info.description }
      | _, _, _, _ => none
    else none
  | FieldKind.t16bit_signed =>
    if range_ok data info.bytes then
      match info.bytes[0]?, info.bytes[1]? with
      | some b0, some b1 =>
        let raw := combine16 (data.getD b0 0) (data.getD b1 0) info.endian
        let value := to_signed16 raw
        some { value := value, hex := some (hex_upper raw 4),
               description := info.description,
               status := info.status_func.map (fun f => f value) }
      | _, _ => none
    else none
  | FieldKind.nibble_lower =>
    if info.byte < data.length then
      let value := data.getD info.byte 0 &&& 0x0F
      some { value := (value : Int), hex := some (hex_upper value 1),
             description := info.description,
             text := info.values.map (fun vs => lookup_label vs value) }
    else none
  | FieldKind.nibble_upper =>
    if info.byte < data.length then
      let value := (data.getD info.byte 0 >>> 4) &&& 0x0F
      some { value := (value : Int), hex := some (hex_upper value 1),
             description := info.description,
             text := info.values.map (fun vs => lookup_label vs value) }
    else none
  | FieldKind.byte_enum =>
    if info.byte < data.length then
      let value := data.getD info.byte 0
      some { value := (value : Int), hex := some (hex_upper value 2),
             description := info.description,
             text := info.values.map (fun vs => lookup_label vs value) }
    else none
  | FieldKind.bit_field =>
    if info.byte < data.length then
      let byte_val := data.getD info.byte 0
      let bit_value := (byte_val >>> info.bit) &&& 0x01
      some { value := (bit_value : Int),
             description := info.description,
             byte_value := some byte_val,
             bit_position := some info.bit,
             text := info.values.map (fun vs => lookup_label vs bit_value) }
    else none

/-- CANTransceiver._decode_special_fields: best-effort decode of every spec of
the table in order; skipped fields are simply absent from the result. -/
def decode_special_fields (data : List Nat) (specs : List (String × FieldInfo)) :
    List (String × DecodedField) :=
  specs.filterMap (fun p => (decode_field data p.2).map (fun d => (p.1, d)))

/-- A (expected_id, expected_data) verification target of a TEST_CASES entry. -/
structure TargetSpec where
  id : Nat
  data : DataPattern
deriving Repr, DecidableEq

/-- One TEST_CASES entry (pcan_sender_with_verification.py lines 16-173):
stimulus frames as (id, payload, description) triples, the descriptive
expected_result label, and the optional verify_success / verify_failure
target lists (dictionary keys that may be absent). -/
structure TestCase where
  description : String := ""
  expected_result : String := ""
  messages : List (Nat × List Nat × String) := []
  verify_success : Option (List TargetSpec) := none
  verify_failure : Option (List TargetSpec) := none
deriving Repr, DecidableEq

/-- Events of one run_test_case execution, in program order.  send carries the
stimulus index, the frame and whether the adapter send succeeded. -/
inductive RunEvent
  | listener_started
  | sent (index : Nat) (can_id : Nat) (data : List Nat) (ok : Bool)
  | verification_phase
  | listener_stopped
deriving Repr, DecidableEq

/-- The verification phase of run_test_case (pcan_sender_with_verification.py
lines 359-374): when the test case declares verify_success, scan the buffer
for each success target until one is found; 'verify_success' in tc is checked
before 'verify_failure'; with neither, verification_passed stays False. -/
def verification_verdict (tc : TestCase) (buffer : List CANMessage) : Bool :=
  match tc.verify_success with
  | some targets => targets.any (fun t => verify_message buffer t.id t.data)
  | none =>
    match tc.verify_failure with
    | some targets => targets.any (fun t => verify_message buffer t.id t.data)
    | none => false

/-- Result record of run_test_case: ran is False when the case has no
messages (early return); success_count over total mirrors the final
sent/total report; events is the program-order action trace. -/
structure RunResult where
  ran : Bool
  success_count : Nat
  total : Nat
  verification_passed : Bool
  events : List RunEvent
deriving Repr, DecidableEq

/-- The send loop of run_test_case (lines 343-349): every message is attempted
in declared order whatever the outcome of earlier sends; send_ok gives the
adapter outcome for each index (CANSender.send returns False on can.CanError
and the loop just continues). -/
def send_phase (send_ok : Nat → Bool) (messages : List (Nat × List Nat × String)) :
    List RunEvent :=
  messages.enum.map (fun p => RunEvent.sent p.1 p.2.1 p.2.2.1 (send_ok p.1))

/-- run_test_case (pcan_sender_with_verification.py lines 317-390) over one
test case: empty message list returns early; otherwise the listener is
started, all stimulus frames are sent back-to-back, the verification phase
scans the capture buffer, and the listener is stopped.  The buffer argument
abstracts the frames the background listener thread captured by the time the
verification scan succeeds or times out. -/
def run_test_case (send_ok : Nat → Bool) (buffer : List CANMessage)
    (tc : TestCase) : RunResult :=
  if tc.messages.isEmpty then
    { ran := false, success_count := 0, total := 0,
      verification_passed := false, events := [] }
  else
    { ran := true
      success_count := (List.range tc.messages.length).countP (fun i => send_ok i)
      total := tc.messages.length
      verification_passed := verification_verdict tc buffer
      events := RunEvent.listener_started :: send_phase send_ok tc.messages ++
        [RunEvent.verification_phase, RunEvent.listener_stopped] }

/-- A MatchTarget of the wait_for_messages candidate lists: dictionary with
keys id, data, name (pcan_receiver.py lines 569-577). -/
structure MatchTarget where
  id : Nat
  data : Option DataPattern
  name : String := ""
deriving Repr, DecidableEq

/-- The target-selection loop of CANReceiver.wait_for_messages
(pcan_receiver.py lines 138-142): the first target whose _check_match accepts
the frame wins, later targets are not consulted. -/
def receiver_find_matched_target (targets : List MatchTarget) (msg : CANMessage) :
    Option MatchTarget :=
  targets.find? (fun t => receiver_check_match msg t.id t.data)

/-- The identical loop of CANTransceiver.wait_for_messages
(pcan_transceiver.py lines 272-276), using the transceiver matcher. -/
def transceiver_find_matched_target (targets : List MatchTarget) (msg : CANMessage) :
    Option MatchTarget :=
  targets.find? (fun t => transceiver_check_match msg t.id t.data)

/-- The crediting step of wait_for_messages (pcan_receiver.py lines 155-157):
match_results is keyed by the hex id string of the matched target, modelled
as counts indexed by the numeric id; only the matched target key is bumped. -/
def credit_match (counts : Nat → Nat) (matched : Option MatchTarget) : Nat → Nat :=
  match matched with
  | none => counts
  | some t => fun k => if k = t.id then counts k + 1 else counts k

/-- Little-endian byte encoding of a 16-bit value, used to state the
decoder round-trip properties. -/
def encode_le2 (v : Nat) : List Nat :=
  [v % 256, v / 256 % 256]

/-- Little-endian byte encoding of a 32-bit value, used to state the
decoder round-trip properties. -/
def encode_le4 (v : Nat) : List Nat :=
  [v % 256, v / 256 % 256, v / 65536 % 256, v / 16777216 % 256]

/-- The byte offsets a field decode reads: the bytes list for multi-byte
kinds, the single byte index otherwise. -/
def referenced_offsets (info : FieldInfo) : List Nat :=
  match info.type with
  | FieldKind.t16bit => info.bytes
  | FieldKind.t32bit => info.bytes
  | FieldKind.t16bit_signed => info.bytes
  | _ => [info.byte]

/-- A spec whose offset list has the arity its kind requires (the
registry-load well-formedness of the spec). -/
def well_formed (info : FieldInfo) : Prop :=
  match info.type with
  | FieldKind.t16bit => info.bytes.length = 2
  | FieldKind.t16bit_signed => info.bytes.length = 2
  | FieldKind.t32bit => info.bytes.length = 4
  | _ => True

def is_send_event : RunEvent → Bool
  | RunEvent.sent _ _ _ _ => true
  | _ => false

def sent_frame : RunEvent → Option (Nat × Nat × List Nat)
  | RunEvent.sent i cid d _ => some (i, cid, d)
  | _ => none

theorem lor_shiftLeft_eq_add (n x y : Nat) (hx : x < 2 ^ n) :
    x ||| (y <<< n) = x + 2 ^ n * y := by
  rw [Nat.shiftLeft_eq, Nat.lor_comm, Nat.mul_comm y (2 ^ n),
    ← Nat.mul_add_lt_is_or hx y, Nat.add_comm]

theorem combine16_le_eq (x0 x1 : Nat) (h0 : x0 < 256) :
    combine16 x0 x1 Endianness.little = x0 + 256 * x1 := by
  simpa using lor_shiftLeft_eq_add 8 x0 x1 (by omega)

theorem combine32_le_eq (x0 x1 x2 x3 : Nat) (h0 : x0 < 256) (h1 : x1 < 256)
    (h2 : x2 < 256) :
    combine32 x0 x1 x2 x3 Endianness.little
      = x0 + 256 * x1 + 65536 * x2 + 16777216 * x3 := by
  unfold combine32
  have e1 : x0 ||| (x1 <<< 8) = x0 + 256 * x1 := by
    simpa using lor_shiftLeft_eq_add 8 x0 x1 (by omega)
  have e2 : (x0 + 256 * x1) ||| (x2 <<< 16) = x0 + 256 * x1 + 65536 * x2 := by
    simpa using lor_shiftLeft_eq_add 16 (x0 + 256 * x1) x2 (by omega)
  have e3 : (x0 + 256 * x1 + 65536 * x2) ||| (x3 <<< 24)
      = x0 + 256 * x1 + 65536 * x2 + 16777216 * x3 := by
    simpa using lor_shiftLeft_eq_add 24 (x0 + 256 * x1 + 65536 * x2) x3 (by omega)
  rw [e1, e2, e3]

theorem receiver_combine16_le_eq (x0 x1 : Nat) :
    receiver_combine16_le x0 x1 = combine16 x0 x1 Endianness.little := by
  unfold receiver_combine16_le combine16
  exact Nat.lor_comm _ _

theorem receiver_combine32_le_eq (x0 x1 x2 x3 : Nat) :
    receiver_combine32_le x0 x1 x2 x3 = combine32 x0 x1 x2 x3 Endianness.little := by
  unfold receiver_combine32_le combine32
  apply Nat.eq_of_testBit_eq
  intro i
  simp only [Nat.testBit_lor]
  cases x0.testBit i <;> cases (x1 <<< 8).testBit i <;>
    cases (x2 <<< 16).testBit i <;> cases (x3 <<< 24).testBit i <;> rfl

theorem transceiver_bytes_ok_iff (data : List Nat) (pat : DataPattern) (i : Nat) :
    transceiver_bytes_ok data i pat = true ↔
      ∀ j b, pat[j]? = some (some b) → data.getD (i + j) 0 = b := by
  induction pat generalizing i with
  | nil => simp [transceiver_bytes_ok]
  | cons hd rest ih =>
    cases hd with
    | none =>
      rw [transceiver_bytes_ok, ih]
      constructor
      · intro h j b hj
        cases j with
        | zero => simp at hj
        | succ j =>
          have e : i + (j + 1) = i + 1 + j := by omega
          rw [e]
          exact h j b (by simpa using hj)
      · intro h j b hj
        have e : i + 1 + j = i + (j + 1) := by omega
        rw [e]
        exact h (j + 1) b (by simpa using hj)
    | some b0 =>
      rw [transceiver_bytes_ok]
      simp only [Bool.and_eq_true, beq_iff_eq, ih]
      constructor
      · intro h j b hj
        cases j with
        | zero =>
          simp only [List.getElem?_cons_zero, Option.some.injEq] at hj
          simpa [hj.symm] using h.1
        | succ j =>
          have e : i + (j + 1) = i + 1 + j := by omega
          rw [e]
          exact h.2 j b (by simpa using hj)
      · intro h
        refine ⟨by simpa using h 0 b0 (by simp), ?_⟩
        intro j b hj
        have e : i + 1 + j = i + (j + 1) := by omega
        rw [e]
        exact h (j + 1) b (by simpa using hj)

theorem bounded_bytes_ok_iff (data : List Nat) (pat : DataPattern) (i : Nat) :
    bounded_bytes_ok data i pat = true ↔
      ∀ j b, pat[j]? = some (some b) → data[i + j]? = some b := by
  induction pat generalizing i with
  | nil => simp [bounded_bytes_ok]
  | cons hd rest ih =>
    cases hd with
    | none =>
      rw [bounded_bytes_ok, ih]
      constructor
      · intro h j b hj
        cases j with
        | zero => simp at hj
        | succ j =>
          have e : i + (j + 1) = i + 1 + j := by omega
          rw [e]
          exact h j b (by simpa using hj)
      · intro h j b hj
        have e : i + 1 + j = i + (j + 1) := by omega
        rw [e]
        exact h (j + 1) b (by simpa using hj)
    | some b0 =>
      rw [bounded_bytes_ok]
      constructor
      · intro h j b hj
        cases hd : data[i]? with
        | none => rw [hd] at h; exact absurd h (by simp)
        | some d =>
          rw [hd] at h
          simp only [Bool.and_eq_true, beq_iff_eq] at h
          cases j with
          | zero =>
            simp only [List.getElem?_cons_zero, Option.some.injEq] at hj
            rw [Nat.add_zero, hd, h.1, hj]
          | succ j =>
            have e : i + (j + 1) = i + 1 + j := by omega
            rw [e]
            exact (ih (i + 1)).mp h.2 j b (by simpa using hj)
      · intro h
        have h0 : data[i]? = some b0 := by simpa using h 0 b0 (by simp)
        rw [h0]
        simp only [Bool.and_eq_true, beq_iff_eq]
        refine ⟨trivial, ?_⟩
        rw [ih]
        intro j b hj
        have e : i + 1 + j = i + (j + 1) := by omega
        rw [e]
        exact h (j + 1) b (by simpa using hj)

theorem transceiver_bytes_ok_set_none (data : List Nat) (pat : DataPattern) (i j : Nat)
    (h : transceiver_bytes_ok data i pat = true) :
    transceiver_bytes_ok data i (pat.set j none) = true := by
  rw [transceiver_bytes_ok_iff] at h ⊢
  intro k b hk
  apply h k b
  by_cases hkj : j = k
  · subst hkj
    by_cases hlt : j < pat.length
    · rw [List.getElem?_set_self hlt] at hk
      simp at hk
    · rw [List.set_eq_of_length_le (by omega)] at hk
      exact hk
  · rwa [List.getElem?_set_ne hkj] at hk

theorem bounded_bytes_ok_set_none (data : List Nat) (pat : DataPattern) (i j : Nat)
    (h : bounded_bytes_ok data i pat = true) :
    bounded_bytes_ok data i (pat.set j none) = true := by
  rw [bounded_bytes_ok_iff] at h ⊢
  intro k b hk
  apply h k b
  by_cases hkj : j = k
  · subst hkj
    by_cases hlt : j < pat.length
    · rw [List.getElem?_set_self hlt] at hk
      simp at hk
    · rw [List.set_eq_of_length_le (by omega)] at hk
      exact hk
  · rwa [List.getElem?_set_ne hkj] at hk

theorem getD_pointwise_eq_iff (P Q : List Nat) (hlen : P.length = Q.length) :
    (∀ j b, Q[j]? = some b → P.getD j 0 = b) ↔ P = Q := by
  constructor
  · intro h
    apply List.ext_getElem hlen
    intro n h1 h2
    have hq : Q[n]? = some (Q.get ⟨n, h2⟩) := by
      rw [List.getElem?_eq_getElem h2]
      rfl
    have := h n _ hq
    rw [List.getD_eq_getElem?_getD, List.getElem?_eq_getElem h1] at this
    simpa using this
  · intro he
    subst he
    intro j b hj
    simp [List.getD_eq_getElem?_getD, hj]

theorem getElem?_pointwise_eq_iff (P Q : List Nat) (hlen : P.length = Q.length) :
    (∀ (j b : Nat), Q[j]? = some b → P[j]? = some b) ↔ P = Q := by
  constructor
  · intro h
    apply List.ext_getElem?
    intro n
    by_cases hn : n < Q.length
    · have hq : Q[n]? = some (Q.get ⟨n, hn⟩) := by
        rw [List.getElem?_eq_getElem hn]
        rfl
      rw [hq]
      exact h n _ hq
    · rw [List.getElem?_eq_none (l := P) (by omega), List.getElem?_eq_none (by omega)]
  · intro he
    subst he
    exact fun j b h => h

theorem combine16_roundtrip (v : Nat) (hv : v < 65536) :
    combine16 (v % 256) (v / 256 % 256) Endianness.little = v := by
  rw [combine16_le_eq _ _ (by omega)]
  omega

theorem combine32_roundtrip (v : Nat) (hv : v < 4294967296) :
    combine32 (v % 256) (v / 256 % 256) (v / 65536 % 256) (v / 16777216 % 256)
      Endianness.little = v := by
  rw [combine32_le_eq _ _ _ _ (by omega) (by omega) (by omega)]
  omega

theorem to_signed16_roundtrip (w : Int) (hlo : -32768 ≤ w) (hhi : w ≤ 32767) :
    to_signed16 ((w % 65536).toNat) = w := by
  unfold to_signed16
  split <;> omega

theorem decode16_roundtrip (v : Nat) (hv : v < 65536) :
    (decode_field (encode_le2 v)
      { type := FieldKind.t16bit, bytes := [0, 1] }).map DecodedField.value
      = some ((v : Int)) := by
  simp only [decode_field, encode_le2, range_ok]
  norm_num
  rw [combine16_roundtrip v hv]

theorem decode32_roundtrip (v : Nat) (hv : v < 4294967296) :
    (decode_field (encode_le4 v)
      { type := FieldKind.t32bit, bytes := [0, 1, 2, 3] }).map DecodedField.value
      = some ((v : Int)) := by
  simp only [decode_field, encode_le4, range_ok]
  norm_num
  rw [combine32_roundtrip v hv]

theorem decode32_offset_roundtrip (v p0 p1 p2 : Nat) (hv : v < 4294967296) :
    (decode_field ([p0, p1, p2] ++ encode_le4 v)
      { type := FieldKind.t32bit, bytes := [3, 4, 5, 6] }).map DecodedField.value
      = some ((v : Int)) := by
  simp only [decode_field, encode_le4, range_ok, List.cons_append, List.nil_append]
  norm_num
  rw [combine32_roundtrip v hv]

theorem decode_signed16_roundtrip (w : Int) (hlo : -32768 ≤ w) (hhi : w ≤ 32767) :
    (decode_field (encode_le2 ((w % 65536).toNat))
      { type := FieldKind.t16bit_signed, bytes := [0, 1] }).map DecodedField.value
      = some w := by
  simp only [decode_field, encode_le2, range_ok]
  norm_num
  rw [combine16_roundtrip ((w % 65536).toNat) (by omega)]
  exact to_signed16_roundtrip w hlo hhi

theorem decode_field_isSome_iff (data : List Nat) (info : FieldInfo)
    (hwf : well_formed info) :
    (decode_field data info).isSome = range_ok data (referenced_offsets info) := by
  obtain ⟨ty, desc, bys, byt, en, bit, vals, eb, sf⟩ := info
  cases ty with
  | t16bit =>
    simp only [well_formed] at hwf
    match bys, hwf with
    | [b0, b1], _ =>
      simp only [decode_field, referenced_offsets]
      split <;> simp_all
  | t32bit =>
    simp only [well_formed] at hwf
    match bys, hwf with
    | [b0, b1, b2, b3], _ =>
      simp only [decode_field, referenced_offsets]
      cases eb <;> split <;> simp_all
  | t16bit_signed =>
    simp only [well_formed] at hwf
    match bys, hwf with
    | [b0, b1], _ =>
      simp only [decode_field, referenced_offsets]
      split <;> simp_all
  | nibble_lower =>
    simp only [decode_field, referenced_offsets, range_ok, List.all_cons,
      List.all_nil, Bool.and_true]
    split <;> simp_all
  | nibble_upper =>
    simp only [decode_field, referenced_offsets, range_ok, List.all_cons,
      List.all_nil, Bool.and_true]
    split <;> simp_all
  | byte_enum =>
    simp only [decode_field, referenced_offsets, range_ok, List.all_cons,
      List.all_nil, Bool.and_true]
    split <;> simp_all
  | bit_field =>
    simp only [decode_field, referenced_offsets, range_ok, List.all_cons,
      List.all_nil, Bool.and_true]
    split <;> simp_all

theorem key_unique {α β : Type} [DecidableEq α] (l : List (α × β))
    (h : (l.map Prod.fst).Nodup) {a : α} {b1 b2 : β}
    (h1 : (a, b1) ∈ l) (h2 : (a, b2) ∈ l) : b1 = b2 := by
  induction l with
  | nil => cases h1
  | cons hd tl ih =>
    simp only [List.map_cons, List.nodup_cons] at h
    cases h1 with
    | head =>
      cases h2 with
      | head => rfl
      | tail _ hm =>
        exact absurd (List.mem_map_of_mem Prod.fst hm) (by simpa using h.1)
    | tail _ hm1 =>
      cases h2 with
      | head =>
        exact absurd (List.mem_map_of_mem Prod.fst hm1) (by simpa using h.1)
      | tail _ hm2 => exact ih h.2 hm1 hm2

theorem find?_eq_of_first {α : Type} (p : α → Bool) (l : List α) (i : Nat) (x : α)
    (hx : l[i]? = some x) (hpx : p x = true)
    (hbefore : ∀ j y, j < i → l[j]? = some y → p y = false) :
    l.find? p = some x := by
  induction l generalizing i with
  | nil => simp at hx
  | cons hd tl ih =>
    cases i with
    | zero =>
      simp only [List.getElem?_cons_zero, Option.some.injEq] at hx
      subst hx
      exact List.find?_cons_of_pos _ hpx
    | succ i =>
      have h0 : p hd = false := hbefore 0 hd (by omega) (by simp)
      rw [List.find?_cons_of_neg _ (by simp [h0])]
      exact ih i (by simpa using hx)
        (fun j y hj hy => hbefore (j + 1) y (by omega) (by simpa using hy))

theorem transceiver_check_match_some (msg : CANMessage) (tid : Nat) (pat : DataPattern) :
    transceiver_check_match msg tid (some pat) =
      if msg.arbitration_id != tid then false
      else if msg.data.length < pat.length then false
      else transceiver_bytes_ok msg.data 0 pat := rfl

theorem receiver_check_match_some (msg : CANMessage) (tid : Nat) (pat : DataPattern) :
    receiver_check_match msg tid (some pat) =
      if msg.arbitration_id != tid then false
      else if msg.data.length != pat.length then false
      else bounded_bytes_ok msg.data 0 pat := rfl

theorem filterMap_sent_frame_map (send_ok : Nat → Bool)
    (l : List (Nat × (Nat × List Nat × String))) :
    ((l.map (fun p => RunEvent.sent p.1 p.2.1 p.2.2.1 (send_ok p.1))).filterMap
        sent_frame)
      = l.map (fun p => (p.1, p.2.1, p.2.2.1)) := by
  induction l with
  | nil => rfl
  | cons hd tl ih =>
    simp only [List.map_cons, List.filterMap_cons]
    rw [ih]
    rfl

theorem filter_is_send_map (send_ok : Nat → Bool)
    (l : List (Nat × (Nat × List Nat × String))) :
    ((l.map (fun p => RunEvent.sent p.1 p.2.1 p.2.2.1 (send_ok p.1))).filter
        is_send_event)
      = l.map (fun p => RunEvent.sent p.1 p.2.1 p.2.2.1 (send_ok p.1)) := by
  induction l with
  | nil => rfl
  | cons hd tl ih =>
    simp only [List.map_cons, List.filter_cons]
    rw [ih]
    rfl

theorem receiver_range_ok_eq_range_ok (data : List Nat) (idxs : List Nat)
    (h : idxs ≠ []) : receiver_range_ok data idxs = range_ok data idxs := by
  unfold receiver_range_ok
  cases hm : idxs.max? with
  | none => exact absurd (List.max?_eq_none_iff.mp hm) h
  | some m =>
    have hmem : m ∈ idxs := List.max?_mem (fun a b => by omega) hm
    have hle : ∀ x : Nat, m ≤ x ↔ ∀ b ∈ idxs, b ≤ x :=
      fun x => List.max?_le_iff (fun a b c => by omega) hm
    rw [Bool.eq_iff_iff]
    simp only [decide_eq_true_eq, range_ok, List.all_eq_true, decide_eq_true_eq]
    constructor
    · intro hm2 x hx
      have hxm : x ≤ m := ((hle m).mp (Nat.le_refl m)) x hx
      omega
    · intro hall
      exact hall m hmem

/-- C1 (amended): with a matching identifier and agreement on every
non-wildcard pattern position, the transceiver matcher accepts any payload at
least as long as the pattern (prefix semantics), while the receiver matcher
accepts only a payload whose length equals the pattern length exactly. -/
theorem claim_C1_prefix_match (msg : CANMessage) (tid : Nat) (pat : DataPattern)
    (hid : msg.arbitration_id = tid)
    (hbytes : ∀ (i b : Nat), pat[i]? = some (some b) → msg.data[i]? = some b) :
    (pat.length ≤ msg.data.length →
      transceiver_check_match msg tid (some pat) = true)
    ∧ (msg.data.length = pat.length →
      receiver_check_match msg tid (some pat) = true) := by
  constructor
  · intro hlen
    unfold transceiver_check_match
    rw [hid]
    simp only [bne_self_eq_false, Bool.false_eq_true, if_false, Nat.not_lt.mpr hlen,
      if_neg (by omega : ¬ msg.data.length < pat.length)]
    rw [transceiver_bytes_ok_iff]
    intro j b hj
    rw [Nat.zero_add, List.getD_eq_getElem?_getD, hbytes j b hj]
    rfl
  · intro hlen
    unfold receiver_check_match
    rw [hid]
    simp only [bne_self_eq_false, Bool.false_eq_true, if_false,
      if_neg (by simp [hlen] : ¬ (msg.data.length != pat.length) = true)]
    rw [bounded_bytes_ok_iff]
    intro j b hj
    rw [Nat.zero_add]
    exact hbytes j b hj

/-- C1 counterexample: the payload FF 00 81 02 has the target identifier, is
longer than the pattern FF 00 81 and agrees with it on the first three bytes,
so the claim as stated requires a match; the transceiver matcher accepts it
but the receiver matcher rejects it (it demands equal length). -/
theorem claim_C1_counterexample :
    transceiver_check_match
      { arbitration_id := 0x114F0900, is_extended_id := true,
        data := [0xFF, 0x00, 0x81, 0x02] }
      0x114F0900 (some [some 0xFF, some 0x00, some 0x81]) = true
    ∧ receiver_check_match
      { arbitration_id := 0x114F0900, is_extended_id := true,
        data := [0xFF, 0x00, 0x81, 0x02] }
      0x114F0900 (some [some 0xFF, some 0x00, some 0x81]) = false := by
  constructor <;> decide

/-- C1 witness: a concrete application of the amended theorem. -/
theorem claim_C1_prefix_match_witness :
    (∀ (i b : Nat), ([some 1, none] : DataPattern)[i]? = some (some b) →
      ([1, 2, 3] : List Nat)[i]? = some b)
    ∧ (([some 1, none] : DataPattern).length ≤ ([1, 2, 3] : List Nat).length →
      transceiver_check_match
        { arbitration_id := 10, is_extended_id := true, data := [1, 2, 3] }
        10 (some [some 1, none]) = true)
    ∧ (([1, 2, 3] : List Nat).length = ([some 1, none] : DataPattern).length →
      receiver_check_match
        { arbitration_id := 10, is_extended_id := true, data := [1, 2, 3] }
        10 (some [some 1, none]) = true) :=
  ⟨by intro i b h
      rcases i with _ | _ | i <;> simp_all <;> rfl,
   (claim_C1_prefix_match
      { arbitration_id := 10, is_extended_id := true, data := [1, 2, 3] }
      10 [some 1, none] rfl
      (by intro i b h
          rcases i with _ | _ | i <;> simp_all <;> rfl)).1,
   (claim_C1_prefix_match
      { arbitration_id := 10, is_extended_id := true, data := [1, 2, 3] }
      10 [some 1, none] rfl
      (by intro i b h
          rcases i with _ | _ | i <;> simp_all <;> rfl)).2⟩

/-- C3: with matching identifier and a wildcard-free pattern of the payload
length, both matchers accept exactly the byte-for-byte equal payload; and
turning any single pattern position into a wildcard never rejects a payload
either matcher previously accepted. -/
theorem claim_C3_exact_and_widening (cid : Nat) (ext : Bool) (P Q : List Nat)
    (hlen : P.length = Q.length) :
    (transceiver_check_match
        { arbitration_id := cid, is_extended_id := ext, data := P }
        cid (some (Q.map some)) = true ↔ P = Q)
    ∧ (receiver_check_match
        { arbitration_id := cid, is_extended_id := ext, data := P }
        cid (some (Q.map some)) = true ↔ P = Q)
    ∧ ∀ (msg : CANMessage) (tid : Nat) (pat : DataPattern) (j : Nat),
      (transceiver_check_match msg tid (some pat) = true →
        transceiver_check_match msg tid (some (pat.set j none)) = true)
      ∧ (receiver_check_match msg tid (some pat) = true →
        receiver_check_match msg tid (some (pat.set j none)) = true) := by
  refine ⟨?_, ?_, ?_⟩
  · rw [transceiver_check_match_some]
    simp only [bne_self_eq_false, Bool.false_eq_true, if_false, List.length_map]
    rw [if_neg (by omega : ¬ P.length < Q.length)]
    rw [transceiver_bytes_ok_iff]
    rw [← getD_pointwise_eq_iff P Q hlen]
    constructor
    · intro h j b hj
      have := h j b (by simp [List.getElem?_map, hj])
      simpa using this
    · intro h j b hj
      simp only [List.getElem?_map, Option.map_eq_some'] at hj
      obtain ⟨a, ha, hab⟩ := hj
      obtain rfl : a = b := by simpa using hab
      simpa using h j a ha
  · rw [receiver_check_match_some]
    simp only [bne_self_eq_false, Bool.false_eq_true, if_false, List.length_map]
    rw [if_neg (by simp [hlen] : ¬ (P.length != Q.length) = true)]
    rw [bounded_bytes_ok_iff]
    rw [← getElem?_pointwise_eq_iff P Q hlen]
    constructor
    · intro h j b hj
      have := h j b (by simp [List.getElem?_map, hj])
      simpa using this
    · intro h j b hj
      simp only [List.getElem?_map, Option.map_eq_some'] at hj
      obtain ⟨a, ha, hab⟩ := hj
      obtain rfl : a = b := by simpa using hab
      simpa using h j a ha
  · intro msg tid pat j
    constructor
    · intro h
      rw [transceiver_check_match_some] at h ⊢
      by_cases hid : (msg.arbitration_id != tid) = true
      · rw [if_pos hid] at h
        exact absurd h (by simp)
      · rw [if_neg hid] at h ⊢
        rw [List.length_set]
        by_cases hl : msg.data.length < pat.length
        · rw [if_pos hl] at h
          exact absurd h (by simp)
        · rw [if_neg hl] at h ⊢
          exact transceiver_bytes_ok_set_none msg.data pat 0 j h
    · intro h
      rw [receiver_check_match_some] at h ⊢
      by_cases hid : (msg.arbitration_id != tid) = true
      · rw [if_pos hid] at h
        exact absurd h (by simp)
      · rw [if_neg hid] at h ⊢
        rw [List.length_set]
        by_cases hl : (msg.data.length != pat.length) = true
        · rw [if_pos hl] at h
          exact absurd h (by simp)
        · rw [if_neg hl] at h ⊢
          exact bounded_bytes_ok_set_none msg.data pat 0 j h

/-- C3 witness: a concrete application of the exact-match and widening
theorem. -/
theorem claim_C3_exact_and_widening_witness :
    (([7, 8] : List Nat).length = ([7, 8] : List Nat).length)
    ∧ (transceiver_check_match
        { arbitration_id := 3, is_extended_id := false, data := [7, 8] }
        3 (some (([7, 8] : List Nat).map some)) = true ↔ ([7, 8] : List Nat) = [7, 8]) :=
  ⟨rfl, (claim_C3_exact_and_widening 3 false [7, 8] [7, 8] rfl).1⟩

/-- C10: the extended-id flag never influences matching: both frame matchers,
the listener frame test, and the verification buffer scan give identical
results on frames that differ only in the is_extended_id flag. -/
theorem claim_C10_extended_flag_irrelevant (cid : Nat) (e1 e2 : Bool)
    (d : List Nat) (tid : Nat) (pat : Option DataPattern) (pat2 : DataPattern)
    (buffer : List CANMessage) (b : Bool) :
    (transceiver_check_match
        { arbitration_id := cid, is_extended_id := e1, data := d } tid pat
      = transceiver_check_match
        { arbitration_id := cid, is_extended_id := e2, data := d } tid pat)
    ∧ (receiver_check_match
        { arbitration_id := cid, is_extended_id := e1, data := d } tid pat
      = receiver_check_match
        { arbitration_id := cid, is_extended_id := e2, data := d } tid pat)
    ∧ (listener_frame_match
        { arbitration_id := cid, is_extended_id := e1, data := d } tid pat2
      = listener_frame_match
        { arbitration_id := cid, is_extended_id := e2, data := d } tid pat2)
    ∧ verify_message
        (buffer.map (fun m => { m with is_extended_id := b })) tid pat2
      = verify_message buffer tid pat2 := by
  refine ⟨rfl, rfl, rfl, ?_⟩
  unfold verify_message check_message_received
  induction buffer with
  | nil => rfl
  | cons hd tl ih =>
    simp only [List.map_cons, List.find?_cons]
    have he : listener_frame_match { hd with is_extended_id := b } tid pat2
        = listener_frame_match hd tid pat2 := rfl
    rw [he]
    cases listener_frame_match hd tid pat2 <;> simp_all

/-- C2: the scripted-run result is unchanged by the descriptive
expected_result label, and the verdict is exactly whether some declared
expectation target (the success list when declared, otherwise the failure
list) is matched by a captured frame. -/
theorem claim_C2_verdict_ignores_label (tc : TestCase) (lbl : String)
    (send_ok : Nat → Bool) (buffer : List CANMessage) :
    run_test_case send_ok buffer { tc with expected_result := lbl }
      = run_test_case send_ok buffer tc
    ∧ (verification_verdict tc buffer = true ↔
        ∃ t ∈ tc.verify_success.getD (tc.verify_failure.getD []),
          ∃ m ∈ buffer, listener_frame_match m t.id t.data = true) := by
  constructor
  · rfl
  · unfold verification_verdict
    cases hs : tc.verify_success with
    | some ts =>
      simp [verify_message, check_message_received, List.any_eq_true,
        List.find?_isSome]
    | none =>
      cases hf : tc.verify_failure with
      | some ts =>
        simp [verify_message, check_message_received, List.any_eq_true,
          List.find?_isSome]
      | none => simp

/-- C6: the wait_for_messages target loop credits a frame to the first
declared target whose matcher accepts it.  The two selection loops use
different matchers, so each conjunct carries its own first-match
hypotheses: whenever target t at position i is the first one the receiver
matcher accepts, the receiver loop returns t and only the key of t is
incremented; and independently, whenever t is the first one the
transceiver matcher accepts, the transceiver loop returns t. -/
theorem claim_C6_first_match_wins (targets : List MatchTarget) (msg : CANMessage)
    (counts : Nat → Nat) :
    (∀ (i : Nat) (t : MatchTarget),
      targets[i]? = some t →
      receiver_check_match msg t.id t.data = true →
      (∀ (j : Nat) (u : MatchTarget), j < i → targets[j]? = some u →
        receiver_check_match msg u.id u.data = false) →
      receiver_find_matched_target targets msg = some t
      ∧ ∀ k, credit_match counts (receiver_find_matched_target targets msg) k
          = if k = t.id then counts k + 1 else counts k)
    ∧ (∀ (i : Nat) (t : MatchTarget),
      targets[i]? = some t →
      transceiver_check_match msg t.id t.data = true →
      (∀ (j : Nat) (u : MatchTarget), j < i → targets[j]? = some u →
        transceiver_check_match msg u.id u.data = false) →
      transceiver_find_matched_target targets msg = some t) := by
  constructor
  · intro i t hit hr hbr
    have h1 : receiver_find_matched_target targets msg = some t :=
      find?_eq_of_first _ targets i t hit hr (fun j y hj hy => hbr j y hj hy)
    refine ⟨h1, ?_⟩
    intro k
    rw [h1]
    rfl
  · intro i t hit ht hbt
    exact find?_eq_of_first _ targets i t hit ht (fun j y hj hy => hbt j y hj hy)

/-- C6 witness: two targets on the same identifier, target A with pattern
9 9 and target B with no pattern, against the frame with data 9 9 0.  The
receiver matcher rejects A (exact length) so the receiver loop credits B,
while the transceiver matcher accepts A (prefix) so the transceiver loop
picks A — each loop crediting its own first matching target. -/
theorem claim_C6_first_match_wins_witness :
    receiver_find_matched_target
        [{ id := 5, data := some [some 9, some 9], name := "A" },
         { id := 5, data := none, name := "B" }]
        { arbitration_id := 5, is_extended_id := true, data := [9, 9, 0] }
      = some { id := 5, data := none, name := "B" }
    ∧ transceiver_find_matched_target
        [{ id := 5, data := some [some 9, some 9], name := "A" },
         { id := 5, data := none, name := "B" }]
        { arbitration_id := 5, is_extended_id := true, data := [9, 9, 0] }
      = some { id := 5, data := some [some 9, some 9], name := "A" } :=
  ⟨((claim_C6_first_match_wins
      [{ id := 5, data := some [some 9, some 9], name := "A" },
       { id := 5, data := none, name := "B" }]
      { arbitration_id := 5, is_extended_id := true, data := [9, 9, 0] }
      (fun _ => 0)).1 1 { id := 5, data := none, name := "B" } rfl (by decide)
      (by
        intro j u hj hu
        obtain rfl : j = 0 := by omega
        simp only [List.getElem?_cons_zero, Option.some.injEq] at hu
        subst hu
        decide)).1,
    (claim_C6_first_match_wins
      [{ id := 5, data := some [some 9, some 9], name := "A" },
       { id := 5, data := none, name := "B" }]
      { arbitration_id := 5, is_extended_id := true, data := [9, 9, 0] }
      (fun _ => 0)).2 0 { id := 5, data := some [some 9, some 9], name := "A" }
      rfl (by decide)
      (by
        intro j u hj hu
        exact absurd hj (by omega))⟩

/-- C7: send failures are non-fatal to a scripted run: every stimulus frame
is attempted in declared order whatever the adapter outcomes, the final
sent/total count reflects exactly the successful sends, and the verification
phase still runs against the captured buffer. -/
theorem claim_C7_send_failures_nonfatal (tc : TestCase) (send_ok : Nat → Bool)
    (buffer : List CANMessage) (hne : tc.messages ≠ []) :
    ((run_test_case send_ok buffer tc).events.filterMap sent_frame
      = tc.messages.enum.map (fun p => (p.1, p.2.1, p.2.2.1)))
    ∧ (run_test_case send_ok buffer tc).success_count
      = ((List.range tc.messages.length).filter (fun i => send_ok i)).length
    ∧ (run_test_case send_ok buffer tc).total = tc.messages.length
    ∧ (run_test_case send_ok buffer tc).verification_passed
      = verification_verdict tc buffer := by
  have h0 : tc.messages.isEmpty = false := by
    cases hm : tc.messages with
    | nil => exact absurd hm hne
    | cons hd tl => rfl
  refine ⟨?_, ?_, ?_, ?_⟩
  · rw [run_test_case]
    rw [h0]
    simp only [Bool.false_eq_true, if_false, List.filterMap_cons, List.filterMap_append]
    rw [send_phase, filterMap_sent_frame_map]
    simp [sent_frame]
  · rw [run_test_case, h0]
    simp only [Bool.false_eq_true, if_false]
    exact List.countP_eq_length_filter _ _
  · rw [run_test_case, h0]
    rfl
  · rw [run_test_case, h0]
    rfl

/-- C7 witness: a two-frame case where the first send fails and the second
succeeds still attempts both frames and counts one success. -/
theorem claim_C7_send_failures_nonfatal_witness :
    (([( (0x11500700 : Nat), [0x01], "start"), ((0x11500700 : Nat), [0x04], "next")]
        : List (Nat × List Nat × String)) ≠ [])
    ∧ (run_test_case (fun i => i != 0) []
        { expected_result := "PASS",
          messages := [(0x11500700, [0x01], "start"), (0x11500700, [0x04], "next")],
          verify_success := some [⟨0x114F0900, [some 0xFF, some 0x00, some 0x81]⟩] }).success_count
      = ((List.range 2).filter (fun i => (i != 0 : Bool))).length :=
  ⟨by decide,
    (claim_C7_send_failures_nonfatal
      { expected_result := "PASS",
        messages := [(0x11500700, [0x01], "start"), (0x11500700, [0x04], "next")],
        verify_success := some [⟨0x114F0900, [some 0xFF, some 0x00, some 0x81]⟩] }
      (fun i => i != 0) [] (by decide)).2.1⟩

/-- C9: in every run with stimulus frames the capture listener is started
strictly before any frame is sent: the first event of the run is the
listener start, every send event sits at a strictly later position, and one
send event exists per stimulus frame. -/
theorem claim_C9_listener_started_before_sends (tc : TestCase)
    (send_ok : Nat → Bool) (buffer : List CANMessage) (hne : tc.messages ≠ []) :
    (run_test_case send_ok buffer tc).events.head?
      = some RunEvent.listener_started
    ∧ (∀ (k : Nat) (e : RunEvent),
        (run_test_case send_ok buffer tc).events[k]? = some e →
          is_send_event e = true → 0 < k)
    ∧ ((run_test_case send_ok buffer tc).events.filter is_send_event).length
      = tc.messages.length := by
  have h0 : tc.messages.isEmpty = false := by
    cases hm : tc.messages with
    | nil => exact absurd hm hne
    | cons hd tl => rfl
  have hev : (run_test_case send_ok buffer tc).events
      = RunEvent.listener_started :: (send_phase send_ok tc.messages ++
        [RunEvent.verification_phase, RunEvent.listener_stopped]) := by
    rw [run_test_case, h0]
    rfl
  refine ⟨?_, ?_, ?_⟩
  · rw [hev]
    rfl
  · intro k e hk hs
    cases k with
    | zero =>
      rw [hev] at hk
      simp only [List.getElem?_cons_zero, Option.some.injEq] at hk
      subst hk
      simp [is_send_event] at hs
    | succ k => omega
  · rw [hev]
    simp only [List.filter_cons, List.filter_append]
    rw [send_phase, filter_is_send_map]
    simp [is_send_event, List.enum_length]

/-- C9 witness: a concrete one-frame run starts the listener first. -/
theorem claim_C9_listener_started_before_sends_witness :
    (([( (0x11500700 : Nat), [0x01], "start")] : List (Nat × List Nat × String)) ≠ [])
    ∧ (run_test_case (fun _ => true) []
        { expected_result := "PASS",
          messages := [(0x11500700, [0x01], "start")],
          verify_success := some [⟨0x114F0900, [some 0xFF, some 0x00, some 0x81]⟩] }).events.head?
      = some RunEvent.listener_started :=
  ⟨by decide,
    (claim_C9_listener_started_before_sends
      { expected_result := "PASS",
        messages := [(0x11500700, [0x01], "start")],
        verify_success := some [⟨0x114F0900, [some 0xFF, some 0x00, some 0x81]⟩] }
      (fun _ => true) [] (by decide)).1⟩

/-- C4: encoding an unsigned 16-bit or 32-bit value little-endian at the
declared offsets and decoding reproduces it exactly, for both decoder
variants, and the same holds for signed 16-bit values over the full
two's-complement range. -/
theorem claim_C4_decoder_roundtrip (v16 v32 : Nat) (w : Int)
    (h16 : v16 < 65536) (h32 : v32 < 4294967296)
    (hlo : -32768 ≤ w) (hhi : w ≤ 32767) :
    ((decode_field (encode_le2 v16)
        { type := FieldKind.t16bit, bytes := [0, 1] }).map DecodedField.value
      = some ((v16 : Int)))
    ∧ ((decode_field (encode_le4 v32)
        { type := FieldKind.t32bit, bytes := [0, 1, 2, 3] }).map DecodedField.value
      = some ((v32 : Int)))
    ∧ (∀ p0 p1 p2 : Nat, (decode_field ([p0, p1, p2] ++ encode_le4 v32)
        { type := FieldKind.t32bit, bytes := [3, 4, 5, 6] }).map DecodedField.value
      = some ((v32 : Int)))
    ∧ ((decode_field (encode_le2 ((w % 65536).toNat))
        { type := FieldKind.t16bit_signed, bytes := [0, 1] }).map DecodedField.value
      = some w)
    ∧ receiver_combine16_le (v16 % 256) (v16 / 256 % 256) = v16
    ∧ receiver_combine32_le (v32 % 256) (v32 / 256 % 256) (v32 / 65536 % 256)
        (v32 / 16777216 % 256) = v32 := by
  refine ⟨decode16_roundtrip v16 h16, decode32_roundtrip v32 h32,
    fun p0 p1 p2 => decode32_offset_roundtrip v32 p0 p1 p2 h32,
    decode_signed16_roundtrip w hlo hhi, ?_, ?_⟩
  · rw [receiver_combine16_le_eq]
    exact combine16_roundtrip v16 h16
  · rw [receiver_combine32_le_eq]
    exact combine32_roundtrip v32 h32

/-- C4 witness: the round trip at concrete values, including a negative
signed value. -/
theorem claim_C4_decoder_roundtrip_witness :
    ((4660 : Nat) < 65536 ∧ (2309737967 : Nat) < 4294967296
      ∧ (-32768 : Int) ≤ -5 ∧ (-5 : Int) ≤ 32767)
    ∧ (decode_field (encode_le2 4660)
        { type := FieldKind.t16bit, bytes := [0, 1] }).map DecodedField.value
      = some ((4660 : Int))
    ∧ (decode_field (encode_le2 (((-5 : Int) % 65536).toNat))
        { type := FieldKind.t16bit_signed, bytes := [0, 1] }).map DecodedField.value
      = some (-5 : Int) :=
  ⟨⟨by decide, by decide, by decide, by decide⟩,
    (claim_C4_decoder_roundtrip 4660 2309737967 (-5) (by decide) (by decide)
      (by decide) (by decide)).1,
    (claim_C4_decoder_roundtrip 4660 2309737967 (-5) (by decide) (by decide)
      (by decide) (by decide)).2.2.2.1⟩

/-- C5: field decoding is total and best-effort: a well-formed field decodes
exactly when all its referenced offsets are in range; an out-of-range field
is omitted from the decoded mapping while in-range fields still appear; in
particular a 1-byte payload decoded against a 4-byte spec yields the empty
mapping. -/
theorem claim_C5_best_effort_decode (data : List Nat)
    (specs : List (String × FieldInfo)) (name : String) (info : FieldInfo)
    (hwf : well_formed info) (hmem : (name, info) ∈ specs)
    (hkeys : (specs.map Prod.fst).Nodup) :
    ((decode_field data info).isSome = range_ok data (referenced_offsets info))
    ∧ (range_ok data (referenced_offsets info) = false →
        ∀ d, (name, d) ∉ decode_special_fields data specs)
    ∧ (range_ok data (referenced_offsets info) = true →
        ∃ d, (name, d) ∈ decode_special_fields data specs)
    ∧ decode_special_fields [5]
        [("timestamp", { type := FieldKind.t32bit, bytes := [0, 1, 2, 3] })]
      = []
    ∧ ∀ idxs2 : List Nat, idxs2 ≠ [] →
        receiver_range_ok data idxs2 = range_ok data idxs2 := by
  refine ⟨decode_field_isSome_iff data info hwf, ?_, ?_, rfl,
    fun idxs2 h2 => receiver_range_ok_eq_range_ok data idxs2 h2⟩
  · intro hfalse d hd
    unfold decode_special_fields at hd
    rw [List.mem_filterMap] at hd
    obtain ⟨p, hp, he⟩ := hd
    obtain ⟨p1, p2⟩ := p
    rw [Option.map_eq_some'] at he
    obtain ⟨df, hdf, heq⟩ := he
    cases heq
    have hinfo : p2 = info := key_unique specs hkeys hp hmem
    rw [hinfo] at hdf
    have hiss := decode_field_isSome_iff data info hwf
    rw [hfalse, hdf] at hiss
    simp at hiss
  · intro htrue
    have hiss := decode_field_isSome_iff data info hwf
    rw [htrue] at hiss
    obtain ⟨d, hd⟩ := Option.isSome_iff_exists.mp hiss
    refine ⟨d, ?_⟩
    unfold decode_special_fields
    rw [List.mem_filterMap]
    refine ⟨(name, info), hmem, ?_⟩
    rw [hd]
    rfl

/-- C5 witness: the 32-bit timestamp spec against a 1-byte payload is out of
range and its field is omitted from the result. -/
theorem claim_C5_best_effort_decode_witness :
    range_ok [5]
      (referenced_offsets { type := FieldKind.t32bit, bytes := [0, 1, 2, 3] })
      = false
    ∧ ∀ d, ("timestamp", d) ∉ decode_special_fields [5]
        [("timestamp", { type := FieldKind.t32bit, bytes := [0, 1, 2, 3] })] :=
  ⟨by decide,
    (claim_C5_best_effort_decode [5]
      [("timestamp", { type := FieldKind.t32bit, bytes := [0, 1, 2, 3] })]
      "timestamp" { type := FieldKind.t32bit, bytes := [0, 1, 2, 3] }
      rfl (List.mem_singleton.mpr rfl) (by simp)).2.1 (by decide)⟩

/-- C8: a 32-bit field with an epoch base attaches the Unix timestamp
epoch_base plus the decoded value and its UTC calendar rendering; value 0
with base 1451606400 gives 2016-01-01 00:00:00 UTC, and a sum outside the
calendar range gives the literal marker instead of failing. -/
theorem claim_C8_epoch_timestamp (v : Nat) (base : Int) (hv : v < 4294967296) :
    ((decode_field (encode_le4 v)
        { type := FieldKind.t32bit, bytes := [0, 1, 2, 3],
          epoch_base := some base }).map (fun d => d.unix_timestamp)
      = some (some ((v : Int) + base)))
    ∧ ((decode_field (encode_le4 v)
        { type := FieldKind.t32bit, bytes := [0, 1, 2, 3],
          epoch_base := some base }).map (fun d => d.datetime)
      = some (some (datetime_from_timestamp_utc ((v : Int) + base))))
    ∧ ((decode_field [0, 0, 0, 0]
        { type := FieldKind.t32bit, bytes := [0, 1, 2, 3],
          epoch_base := some EPOCH_BASE }).map (fun d => d.datetime)
      = some (some "2016-01-01 00:00:00 UTC"))
    ∧ ((decode_field [0, 0, 0, 0]
        { type := FieldKind.t32bit, bytes := [0, 1, 2, 3],
          epoch_base := some 253402300800 }).map (fun d => d.datetime)
      = some (some "Invalid timestamp")) := by
  refine ⟨?_, ?_, by decide, by decide⟩
  · simp only [decode_field, encode_le4, range_ok]
    norm_num
    rw [combine32_roundtrip v hv]
  · simp only [decode_field, encode_le4, range_ok]
    norm_num
    rw [combine32_roundtrip v hv]

/-- C8 witness: the general epoch attachment applied at value 0 with the
2016 base. -/
theorem claim_C8_epoch_timestamp_witness :
    (0 : Nat) < 4294967296
    ∧ (decode_field (encode_le4 0)
        { type := FieldKind.t32bit, bytes := [0, 1, 2, 3],
          epoch_base := some EPOCH_BASE }).map (fun d => d.unix_timestamp)
      = some (some (((0 : Nat) : Int) + EPOCH_BASE)) :=
  ⟨by decide, (claim_C8_epoch_timestamp 0 EPOCH_BASE (by decide)).1⟩
